import Mathlib

/-!
Verification development for `CityAnalysis/script/kit_producer_report.py`.

The script resolves a building's per-era production definition into a flat
list of terminal reward references (`iter_reward_products` / `walk_product`),
classifies each reference as a target-kit producer (`parse_reward_entry`),
aggregates classified rewards into ranked per-kit building buckets
(`aggregate_kit_reports`), and serializes the result into a minimal xlsx
container (`build_sheet_xml`, `column_name`, ...).

The Python data is loosely-typed JSON.  The embedding models exactly the
fields each function reads:
* a chance value (the value under the first present key among
  `dropChance`, `drop_chance`, `chance`, `probability`) is modelled as
  `Option JVal` — `none` when no chance key is present, `some v` for the
  first present key's value; `JVal.str` carries the result of Python
  `float()` on the string, since the claims do not depend on which decimal
  strings parse;
* a reward dict is modelled as `RewardEntry`; `Option RewardEntry` is `none`
  exactly when the Python value is absent, not a dict, or an empty (falsy)
  dict — in all three cases the script treats it the same way;
* Python floats are modelled as `ℚ`; `math.isclose` on values produced here
  is exact equality.
-/

namespace KitReport

/-- `TARGET_KIT_SUBTYPES`: the two target kit subtypes and their labels. -/
def targetKitLabel (s : String) : Option String :=
  if s = "one_up_kit" then some "One Up Kit"
  else if s = "renovation_kit" then some "Renovation Kit"
  else none

/-- A scalar as seen by `_as_float`: a number, a string (carrying the result
of Python `float()` parsing of that string), or a value of any other type. -/
inductive JVal where
  | num (q : ℚ)
  | str (parsed : Option ℚ)
  | other
deriving DecidableEq

/-- `_as_float`: numbers pass through, strings are float-parsed (may fail),
everything else yields no value. -/
def as_float : JVal → Option ℚ
  | .num q => some q
  | .str parsed => parsed
  | .other => none

/-- `normalize_probability`: unparseable values normalize to no value; a
numeric value `> 1` is divided by 100, otherwise it is returned unchanged. -/
def normalize_probability (value : JVal) : Option ℚ :=
  match as_float value with
  | none => none
  | some numeric => if numeric > 1 then some (numeric / 100) else some numeric

/-- The `assembledReward` sub-dict; only its `subType` field is ever read. -/
structure Assembled where
  subType : Option String := none
deriving DecidableEq

/-- A reward dict, with exactly the fields the script reads.  `amount` is the
numeric value of the `"amount"` key, defaulting to `0` when absent (the
script's `entry.get("amount", 0)` followed by `float(... or 0)`). -/
structure RewardEntry where
  id : Option String := none
  subType : Option String := none
  assembledReward : Option Assembled := none
  amount : ℚ := 0
  name : Option String := none
deriving DecidableEq

/-- The record built by `parse_reward_entry` for a matching reward. -/
structure ParsedKit where
  kit_subtype : String
  kit_label : String
  amount : ℚ
  unit : String
  name : String
deriving DecidableEq

/-- The final fallthrough check of `parse_reward_entry`: an assembled reward
of a target subtype under any other wrapper shape. -/
def parse_assembled_wrapper (entry : RewardEntry) : Option ParsedKit :=
  match entry.assembledReward with
  | some a =>
    match a.subType with
    | some kit_sub =>
      match targetKitLabel kit_sub with
      | some lbl =>
        some { kit_subtype := kit_sub, kit_label := lbl, amount := entry.amount,
               unit := entry.subType.getD "items", name := entry.name.getD lbl }
      | none => none
    | none => none
  | none => none

/-- `parse_reward_entry`: classify one reward dict as a target-kit producer
(fragment wrapper, direct kit, or other wrapper) or reject it. -/
def parse_reward_entry (entry : RewardEntry) : Option ParsedKit :=
  if entry.subType = some "fragment" ∧ entry.assembledReward.isSome then
    match entry.assembledReward with
    | some a =>
      match a.subType with
      | some kit_sub =>
        match targetKitLabel kit_sub with
        | some lbl =>
          some { kit_subtype := kit_sub, kit_label := lbl, amount := entry.amount,
                 unit := "fragments",
                 name := entry.name.getD ("Fragments of " ++ lbl) }
        | none => parse_assembled_wrapper entry
      | none => parse_assembled_wrapper entry
    | none => parse_assembled_wrapper entry
  else
    match entry.subType with
    | some st =>
      match targetKitLabel st with
      | some lbl =>
        some { kit_subtype := st, kit_label := lbl, amount := entry.amount,
               unit := "kits", name := entry.name.getD lbl }
      | none => parse_assembled_wrapper entry
    | none => parse_assembled_wrapper entry

/-- A `chest` candidate: an optional reward dict plus the candidate's own
chance value (first present key among the `DROP_KEYS` aliases). -/
structure Candidate where
  reward : Option RewardEntry := none
  dropRaw : Option JVal := none
deriving DecidableEq

mutual
/-- A product node as read by `walk_product`: its `type` string, its `reward`
dict, the `products` list of a `random` node, the
`possible_rewards`/`possibleRewards` list of a `chest` node, the node's own
chance value, and its `onlyWhenMotivated` flag (the latter two are read only
at the top level of an option's product list). -/
inductive Product where
  | mk (ptype : Option String) (reward : Option RewardEntry) (subs : List SubEntry)
       (possibles : List Candidate) (dropRaw : Option JVal) (onlyWhenMotivated : Bool)

/-- One element of a `random` node's `products` list: the nested node
(`sub.get("product") or sub.get("reward")`, when it is a dict), the
sub-entry's own chance value, and its `onlyWhenMotivated` flag. -/
inductive SubEntry where
  | mk (nested : Option Product) (dropRaw : Option JVal) (onlyWhenMotivated : Bool)
end

def Product.dropRaw : Product → Option JVal
  | .mk _ _ _ _ d _ => d

def Product.onlyWhenMotivated : Product → Bool
  | .mk _ _ _ _ _ m => m

/-- One item yielded by `iter_reward_products`:
`(reward_id, reward_dict, option_name, option_time, drop_chance, requires_motivation)`. -/
structure ResolvedRef where
  rid : Option String
  reward : RewardEntry
  option_name : Option String
  option_time : Option Int
  drop_chance : Option ℚ
  requires_motivation : Bool
deriving DecidableEq

/-- The `chest` branch of `walk_product`: each dict candidate with a reward
dict is emitted as a terminal leaf, with the candidate's own normalized
chance and the inherited option context. -/
def walk_chest (possibles : List Candidate) (option_name : Option String)
    (option_time : Option Int) (requires_motivation : Bool) : List ResolvedRef :=
  possibles.filterMap fun candidate =>
    candidate.reward.map fun rw =>
      { rid := rw.id, reward := rw, option_name := option_name, option_time := option_time,
        drop_chance := candidate.dropRaw.bind normalize_probability,
        requires_motivation := requires_motivation }

mutual
/-- `walk_product`: emit `genericReward` nodes (and unknown-type nodes
carrying a reward dict) as terminal leaves with the current context, recurse
into `random` sub-products, and enumerate `chest` candidates. -/
def walk_product : Product → Option String → Option Int → Option ℚ → Bool → List ResolvedRef
  | .mk ptype reward subs possibles _ _, option_name, option_time, drop_chance,
      requires_motivation =>
    if ptype = some "genericReward" then
      match reward with
      | some rw =>
        [{ rid := rw.id, reward := rw, option_name := option_name, option_time := option_time,
           drop_chance := drop_chance, requires_motivation := requires_motivation }]
      | none => []
    else if ptype = some "random" then
      walk_sub_products subs option_name option_time drop_chance requires_motivation
    else if ptype = some "chest" then
      walk_chest possibles option_name option_time requires_motivation
    else
      match reward with
      | some rw =>
        [{ rid := rw.id, reward := rw, option_name := option_name, option_time := option_time,
           drop_chance := drop_chance, requires_motivation := requires_motivation }]
      | none => []

/-- The `random` branch of `walk_product`: each sub-entry's own normalized
chance, when it yields a value, replaces the inherited one for that subtree;
its motivation flag is OR-combined with the inherited one. -/
def walk_sub_products : List SubEntry → Option String → Option Int → Option ℚ → Bool →
    List ResolvedRef
  | [], _, _, _, _ => []
  | .mk nested sub_drop sub_owm :: rest, option_name, option_time, drop_chance,
      requires_motivation =>
    (match nested with
     | some nested_product =>
       walk_product nested_product option_name option_time
         (match sub_drop.bind normalize_probability with
          | some c => some c
          | none => drop_chance)
         (requires_motivation || sub_owm)
     | none => []) ++
    walk_sub_products rest option_name option_time drop_chance requires_motivation
end

/-- One production option: `name`, `time`, `onlyWhenMotivated`, `products`. -/
structure OptionNode where
  name : Option String := none
  time : Option Int := none
  onlyWhenMotivated : Bool := false
  products : List Product := []

/-- `iter_reward_products`: walk every product of every option, seeding the
walk with the product's own normalized chance and the OR of the option-level
and product-level motivation flags. -/
def iter_reward_products (options : List OptionNode) : List ResolvedRef :=
  options.flatMap fun option =>
    option.products.flatMap fun product =>
      walk_product product option.name option.time
        (product.dropRaw.bind normalize_probability)
        (option.onlyWhenMotivated || product.onlyWhenMotivated)

/-- Python `round` to the nearest integer, halves to even. -/
def pyRound (q : ℚ) : ℤ :=
  let f := ⌊q⌋
  let r := q - f
  if r < 1 / 2 then f
  else if 1 / 2 < r then f + 1
  else if f % 2 = 0 then f else f + 1

/-- Python fixed-point formatting `v:.Nf` with `digits` decimal places
(half-to-even at the last kept digit; exact on the decimal values produced
here). -/
def format_fixed (digits : ℕ) (v : ℚ) : String :=
  let n := pyRound (v * (10 : ℚ) ^ digits)
  let sign := if n < 0 then "-" else ""
  let m := n.natAbs
  let fstr := toString (m % 10 ^ digits)
  let pad := String.mk (List.replicate (digits - fstr.length) '0')
  sign ++ toString (m / 10 ^ digits) ++ "." ++ pad ++ fstr

/-- `format_number`: values that round-trip through `round` (`math.isclose`
is exact on the values produced here) render as the integer, otherwise with
two decimal places. -/
def format_number (value : ℚ) : String :=
  if value = pyRound value then toString (pyRound value)
  else format_fixed 2 value

/-- `format_probability`: `none` renders empty; otherwise the percentage,
as an integer when exact and with one decimal place otherwise. -/
def format_probability : Option ℚ → String
  | none => ""
  | some prob =>
    let pct := prob * 100
    if pct = pyRound pct then toString (pyRound pct) ++ "%"
    else format_fixed 1 pct ++ "%"

/-- `format_time_label`: non-integer times render empty; whole hours as
`"<h>h"`, other second counts as `"<s>s"` (Python `//` and `%` are floored
division, `Int.fdiv` / `Int.fmod`). -/
def format_time_label : Option Int → String
  | none => ""
  | some t =>
    if Int.fmod t 3600 = 0 then toString (Int.fdiv t 3600) ++ "h"
    else toString t ++ "s"

/-- The record appended to `era_rewards` in `main`: the classifier output
plus the resolver context. -/
structure ParsedReward where
  kit_subtype : String
  kit_label : String
  amount : ℚ
  unit : String
  name : String
  option_name : Option String
  option_time : Option Int
  reward_id : Option String
  drop_chance : Option ℚ
  requires_motivation : Bool
deriving DecidableEq

/-- The per-era loop body of `main`: resolve each reward reference, prefer
the era lookup table's entry for its id over the inline fallback
(`lookup.get(reward_id, fallback)`), classify it, and attach the resolver
context. -/
def collect_era_rewards (lookup : String → Option RewardEntry)
    (options : List OptionNode) : List ParsedReward :=
  (iter_reward_products options).filterMap fun ref =>
    let entry := match ref.rid.bind lookup with
      | some canonical => canonical
      | none => ref.reward
    (parse_reward_entry entry).map fun parsed =>
      { kit_subtype := parsed.kit_subtype, kit_label := parsed.kit_label,
        amount := parsed.amount, unit := parsed.unit, name := parsed.name,
        option_name := ref.option_name, option_time := ref.option_time,
        reward_id := (match ref.rid with | some r => some r | none => entry.id),
        drop_chance := ref.drop_chance,
        requires_motivation := ref.requires_motivation }

/-- One element of `matches` in `main`: the building's metadata plus its
classified era rewards (`name` is `entity.get("name", entity.get("id"))`). -/
structure MatchEntry where
  id : Option String := none
  name : Option String := none
  size : Option (Int × Int) := none
  street : Option Int := none
  rewards : List ParsedReward := []

/-- One element of a bucket's `records` list. -/
structure RecordEntry where
  fragments : ℚ
  source_note : String
  time_label : String
  probability : Option ℚ
  needs_motivation : Bool
deriving DecidableEq

/-- One value of `kit_map[kit_key]` in `aggregate_kit_reports`. -/
structure Bucket where
  name : Option String
  size_label : String
  area : Option Int
  street : Option Int
  records : List RecordEntry
  expected : ℚ
deriving DecidableEq

/-- Lines 349–358 of `aggregate_kit_reports`: the fragment-equivalent amount
and the per-unit source note (`kits` convert at 30 fragments per kit; other
units pass the amount through and only annotate the note). -/
def fragments_and_note (amount : ℚ) (unit : String) : ℚ × String :=
  if unit = "kits" then
    (amount * 30,
      " (" ++ format_number amount ++ " kit" ++ (if amount = 1 then "" else "s") ++ ")")
  else if unit = "fragments" then (amount, "")
  else (amount, " (" ++ format_number amount ++ " " ++ unit ++ ")")

/-- Lines 360–362: the effective probability is the carried numeric drop
chance, `1.0` when absent. -/
def effective_probability : Option ℚ → ℚ
  | some prob => prob
  | none => 1

/-- Python `dict.setdefault` plus in-place update, on an insertion-ordered
association list: the bucket with the given key is updated in place,
otherwise a fresh bucket is appended at the end. -/
def add_to_buckets : List (Option String × Bucket) → Option String → Bucket → ℚ →
    RecordEntry → List (Option String × Bucket)
  | [], key, fresh, expected, record =>
    [(key, { fresh with expected := fresh.expected + expected,
                        records := fresh.records ++ [record] })]
  | (k, b) :: rest, key, fresh, expected, record =>
    if k = key then
      (k, { b with expected := b.expected + expected,
                   records := b.records ++ [record] }) :: rest
    else (k, b) :: add_to_buckets rest key fresh expected record

/-- The mutable `kit_map` of `aggregate_kit_reports`: one insertion-ordered
bucket map per target kit type. -/
structure KitMap where
  one_up_kit : List (Option String × Bucket) := []
  renovation_kit : List (Option String × Bucket) := []

/-- The body of the inner reward loop of `aggregate_kit_reports`: rewards of
an unrecognized kit subtype are skipped, the rest accumulate into their kit's
bucket map. -/
def process_reward (entry_name : Option String) (size_label : String)
    (area : Option Int) (street : Option Int) (building_id : Option String)
    (kit_map : KitMap) (reward : ParsedReward) : KitMap :=
  let fresh : Bucket := { name := entry_name, size_label := size_label, area := area,
                          street := street, records := [], expected := 0 }
  let fn := fragments_and_note reward.amount reward.unit
  let expected_fragments := fn.1 * effective_probability reward.drop_chance
  let record : RecordEntry :=
    { fragments := fn.1, source_note := fn.2,
      time_label := format_time_label reward.option_time,
      probability := reward.drop_chance,
      needs_motivation := reward.requires_motivation }
  if reward.kit_subtype = "one_up_kit" then
    { kit_map with one_up_kit :=
        add_to_buckets kit_map.one_up_kit building_id fresh expected_fragments record }
  else if reward.kit_subtype = "renovation_kit" then
    { kit_map with renovation_kit :=
        add_to_buckets kit_map.renovation_kit building_id fresh expected_fragments record }
  else kit_map

/-- The body of the outer match loop of `aggregate_kit_reports`: derive the
area, size label and building id from the match entry, then fold the rewards. -/
def process_match (kit_map : KitMap) (entry : MatchEntry) : KitMap :=
  let area : Option Int := entry.size.map fun s => s.1 * s.2
  let size_label : String := match entry.size with
    | some s => toString s.1 ++ "x" ++ toString s.2
    | none => "unknown"
  let building_id : Option String := match entry.id with
    | some i => some i
    | none => entry.name
  entry.rewards.foldl (process_reward entry.name size_label area entry.street building_id) kit_map

/-- A bucket with its derived `efficiency` field attached. -/
structure RankedBucket where
  name : Option String
  size_label : String
  area : Option Int
  street : Option Int
  records : List RecordEntry
  expected : ℚ
  efficiency : ℚ
deriving DecidableEq

/-- Lines 393–396: `efficiency = expected / area`, `0.0` when the area is
unknown or zero (Python `if area` is falsy for both `None` and `0`). -/
def attach_efficiency (b : Bucket) : RankedBucket :=
  { name := b.name, size_label := b.size_label, area := b.area, street := b.street,
    records := b.records, expected := b.expected,
    efficiency := match b.area with
      | some a => if a ≠ 0 then b.expected / (a : ℚ) else 0
      | none => 0 }

/-- Comparison of the building-name component of the sort key.  Python
compares the raw `str` values (and would raise on a `None`/`str` mix); `none`
is ordered first so the model stays total — the ranking claims only ever
compare string names. -/
def name_key_le : Option String → Option String → Bool
  | none, _ => true
  | some _, none => false
  | some a, some b => a ≤ b

/-- Line 398's sort key `(-efficiency, name)`, as a `≤` test. -/
def rank_le (a b : RankedBucket) : Bool :=
  decide (b.efficiency < a.efficiency) ||
    (decide (a.efficiency = b.efficiency) && name_key_le a.name b.name)

/-- Lines 392–398: attach efficiencies and sort by `(-efficiency, name)`
(Python's stable sort; `List.mergeSort` is likewise stable). -/
def rank_buckets (buckets : List (Option String × Bucket)) : List RankedBucket :=
  (buckets.map fun kb => attach_efficiency kb.2).mergeSort rank_le

/-- The return value of `aggregate_kit_reports`: one ranked list per kit. -/
structure KitReports where
  one_up_kit : List RankedBucket
  renovation_kit : List RankedBucket
deriving DecidableEq

/-- `aggregate_kit_reports`: fold all matches into the kit map, then rank
each kit's buckets. -/
def aggregate_kit_reports (match_entries : List MatchEntry) : KitReports :=
  let kit_map := match_entries.foldl process_match {}
  { one_up_kit := rank_buckets kit_map.one_up_kit,
    renovation_kit := rank_buckets kit_map.renovation_kit }

/-- Lines 514–526 of `build_sheet_rows`: one detail line per record. -/
def record_detail (record : RecordEntry) : String :=
  let detail := format_number record.fragments ++ " fragments"
  let detail := if record.source_note ≠ "" then detail ++ record.source_note else detail
  let detail := if record.time_label ≠ "" then detail ++ " (" ++ record.time_label ++ ")" else detail
  let detail := match record.probability with
    | some p => detail ++ " @ " ++ format_probability (some p)
    | none => detail
  if record.needs_motivation then detail ++ " (needs motivation)" else detail

/-- `xml.sax.saxutils.escape`: replace `&`, `<`, `>` by their entities. -/
def escape_xml (s : String) : String :=
  s.data.foldl (fun acc c =>
    acc ++ (match c with
      | '&' => "&amp;"
      | '<' => "&lt;"
      | '>' => "&gt;"
      | _ => String.singleton c)) ""

/-- Line 712: `text.replace("\n", "&#10;")`. -/
def escape_newlines (s : String) : String :=
  s.data.foldl (fun acc c =>
    acc ++ (if c = '\n' then "&#10;" else String.singleton c)) ""

/-- The `while` loop of `column_name`.  The first argument is loop fuel,
consumed once per iteration: since `(index - 1) / 26 < index` for positive
`index`, starting with fuel `index` the fuel never runs out. -/
def column_name_go : ℕ → ℕ → String
  | _, 0 => ""
  | 0, _ + 1 => ""
  | fuel + 1, index + 1 =>
    column_name_go fuel (index / 26) ++ String.singleton (Char.ofNat (65 + index % 26))

/-- `column_name`: 1-indexed bijective base-26 column letters
(`divmod(index - 1, 26)` per step, digit prepended). -/
def column_name (index : ℕ) : String :=
  column_name_go index index

/-- Decode a column name back to a number (digit value `A`=1 … `Z`=26). -/
def column_value (s : String) : ℕ :=
  s.data.foldl (fun acc c => acc * 26 + (c.toNat - 64)) 0

/-- A cell's `value` field: a Python string, number, or `None`. -/
inductive CellValue where
  | s (v : String)
  | num (v : ℚ)
  | null
deriving DecidableEq

/-- The dict made by the `cell` helper. -/
structure Cell where
  value : CellValue
  ctype : String
deriving DecidableEq

/-- The `cell` helper (default cell type `"string"`). -/
def cell (value : CellValue) (ctype : String := "string") : Cell :=
  { value := value, ctype := ctype }

/-- Python `str()` of a numeric cell value, as interpolated into `<v>`.
Python renders the decimal expansion of the underlying int or float; no
claim verified here inspects a serialized numeric cell, so integral values
render as the integer and other rationals as numerator/denominator. -/
def num_repr (q : ℚ) : String :=
  if q.den = 1 then toString q.num else toString q.num ++ "/" ++ toString q.den

/-- The inline-string branch of the cell serializer (lines 710–715). -/
def cell_text_xml (ref : String) (v : CellValue) : String :=
  let text := match v with
    | .s t => t
    | .num q => num_repr q
    | .null => ""
  let text := escape_newlines (escape_xml text)
  "<c r=\"" ++ ref ++ "\" t=\"inlineStr\"><is><t xml:space=\"preserve\">" ++ text ++
    "</t></is></c>"

/-- One cell of `build_sheet_xml` (lines 703–715): numeric cells of numeric
type serialize as `<v>`, everything else as an inline string. -/
def cell_xml (row_idx col_idx : ℕ) (c : Cell) : String :=
  let ref := column_name col_idx ++ toString row_idx
  if c.ctype = "number" then
    match c.value with
    | .num v => "<c r=\"" ++ ref ++ "\"><v>" ++ num_repr v ++ "</v></c>"
    | v => cell_text_xml ref v
  else cell_text_xml ref c.value

/-- The cells of one row, enumerated from the given column index. -/
def cells_xml (row_idx : ℕ) : ℕ → List Cell → String
  | _, [] => ""
  | col_idx, c :: rest => cell_xml row_idx col_idx c ++ cells_xml row_idx (col_idx + 1) rest

/-- One `<row>` element of `build_sheet_xml`. -/
def row_xml (row_idx : ℕ) (row : List Cell) : String :=
  "<row r=\"" ++ toString row_idx ++ "\">" ++ cells_xml row_idx 1 row ++ "</row>"

/-- The rows of one sheet, enumerated from the given row index. -/
def rows_xml : ℕ → List (List Cell) → String
  | _, [] => ""
  | row_idx, row :: rest => row_xml row_idx row ++ rows_xml (row_idx + 1) rest

/-- `build_sheet_xml`: serialize the rows of one sheet into a worksheet
document.  Each row is serialized independently with its own cell count;
the function has no failure path and performs no structural validation. -/
def build_sheet_xml (rows : List (List Cell)) : String :=
  "<?xml version=\"1.0\" encoding=\"UTF-8\" standalone=\"yes\"?>" ++
  "<worksheet xmlns=\"http://schemas.openxmlformats.org/spreadsheetml/2006/main\">" ++
  "<sheetData>" ++ rows_xml 1 rows ++ "</sheetData>" ++
  "</worksheet>"

/-! ### Shared helper lemmas -/

lemma mergeSort_single {α : Type} (le : α → α → Bool) (a : α) :
    [a].mergeSort le = [a] :=
  List.perm_singleton.mp (List.mergeSort_perm [a] le)

lemma perm_pair_cases {α : Type} {l : List α} {a b : α} (h : l.Perm [a, b]) :
    l = [a, b] ∨ l = [b, a] := by
  obtain ⟨x, y, rfl⟩ := List.length_eq_two.mp (by simpa using h.length_eq)
  have hx : x = a ∨ x = b := by simpa using h.subset (List.mem_cons_self x [y])
  rcases hx with h1 | h1
  · left
    rw [h1] at h
    rw [h1, List.perm_singleton.mp h.cons_inv]
  · right
    rw [h1] at h
    have h2 := (h.trans (List.Perm.swap b a [])).cons_inv
    rw [h1, List.perm_singleton.mp h2]

lemma mergeSort_pair {α : Type} (le : α → α → Bool)
    (htrans : ∀ a b c : α, le a b = true → le b c = true → le a c = true)
    (htotal : ∀ a b : α, (le a b || le b a) = true)
    (a b : α) (hba : le b a = false) :
    [a, b].mergeSort le = [a, b] := by
  rcases perm_pair_cases (List.mergeSort_perm [a, b] le) with h | h
  · exact h
  · exfalso
    have hs := List.sorted_mergeSort htrans htotal [a, b]
    rw [h] at hs
    have hd := (List.pairwise_cons.mp hs).1 a (List.mem_cons_self a [])
    rw [hba] at hd
    exact Bool.false_ne_true hd

/-- Every reference emitted by the `chest` branch comes from a candidate and
carries the candidate's own normalized chance with the inherited context. -/
lemma walk_chest_mem {possibles : List Candidate} {n : Option String} {t : Option Int}
    {r : Bool} {ref : ResolvedRef} (h : ref ∈ walk_chest possibles n t r) :
    ∃ candidate ∈ possibles, ∃ rw, candidate.reward = some rw ∧
      ref = { rid := rw.id, reward := rw, option_name := n, option_time := t,
              drop_chance := candidate.dropRaw.bind normalize_probability,
              requires_motivation := r } := by
  rcases List.mem_filterMap.mp h with ⟨candidate, hc, hmap⟩
  rcases hrw : candidate.reward with _ | rw
  · rw [hrw] at hmap
    simp at hmap
  · rw [hrw] at hmap
    refine ⟨candidate, hc, rw, hrw, ?_⟩
    simpa using hmap.symm

/-! ### Motivation-flag monotonicity (for C5) -/

mutual
theorem walk_product_motivation (p : Product) (n : Option String) (t : Option Int)
    (c : Option ℚ) :
    ∀ ref ∈ walk_product p n t c true, ref.requires_motivation = true := by
  match p with
  | .mk ptype reward subs possibles dropRaw owm =>
    intro ref href
    rw [walk_product.eq_def] at href
    dsimp only at href
    split_ifs at href with h1 h2 h3
    · rcases reward with _ | rw
      · simp at href
      · rw [List.mem_singleton.mp href]
    · exact walk_subs_motivation subs n t c ref href
    · rcases walk_chest_mem href with ⟨_, _, _, _, heq⟩
      rw [heq]
    · rcases reward with _ | rw
      · simp at href
      · rw [List.mem_singleton.mp href]

theorem walk_subs_motivation (subs : List SubEntry) (n : Option String) (t : Option Int)
    (c : Option ℚ) :
    ∀ ref ∈ walk_sub_products subs n t c true, ref.requires_motivation = true := by
  match subs with
  | [] =>
    intro ref href
    rw [walk_sub_products.eq_def] at href
    dsimp only at href
    simp at href
  | .mk (some np) sdrop sowm :: rest =>
    intro ref href
    rw [walk_sub_products.eq_def] at href
    dsimp only at href
    rcases List.mem_append.mp href with h | h
    · exact walk_product_motivation np n t _ ref h
    · exact walk_subs_motivation rest n t c ref h
  | .mk none sdrop sowm :: rest =>
    intro ref href
    rw [walk_sub_products.eq_def] at href
    dsimp only at href
    rcases List.mem_append.mp href with h | h
    · simp at h
    · exact walk_subs_motivation rest n t c ref h
end

/-! ### Chance-range predicates and bounds (for C2) -/

/-- A chance value that, whenever it parses as a float at all, is a number
in `[0, 100]` (a fraction or a proper percentage). -/
def chance_in_range (v : JVal) : Bool :=
  match as_float v with
  | some q => decide (0 ≤ q ∧ q ≤ 100)
  | none => true

def chance_opt_in_range : Option JVal → Bool
  | none => true
  | some v => chance_in_range v

mutual
/-- All chance values appearing anywhere in this product's subtree are in
range. -/
def Product.chances_in_range : Product → Bool
  | .mk _ _ subs possibles dropRaw _ =>
    chance_opt_in_range dropRaw && subs_chances_in_range subs &&
      possibles.all fun c => chance_opt_in_range c.dropRaw

def subs_chances_in_range : List SubEntry → Bool
  | [] => true
  | .mk (some p) dropRaw _ :: rest =>
    chance_opt_in_range dropRaw && p.chances_in_range && subs_chances_in_range rest
  | .mk none dropRaw _ :: rest =>
    chance_opt_in_range dropRaw && subs_chances_in_range rest
end

/-- An absent chance, or a probability in `[0, 1]`. -/
def chance_ok : Option ℚ → Prop
  | none => True
  | some q => 0 ≤ q ∧ q ≤ 1

lemma normalize_chance_ok {v : JVal} (h : chance_in_range v = true) :
    chance_ok (normalize_probability v) := by
  unfold normalize_probability
  rcases hf : as_float v with _ | q
  · trivial
  · unfold chance_in_range at h
    rw [hf] at h
    have hb : 0 ≤ q ∧ q ≤ 100 := of_decide_eq_true h
    dsimp only
    split_ifs with hq
    · exact ⟨div_nonneg hb.1 (by norm_num), by
        rw [div_le_one (by norm_num)]
        exact hb.2⟩
    · exact ⟨hb.1, not_lt.mp hq⟩

lemma bind_normalize_chance_ok {ov : Option JVal} (h : chance_opt_in_range ov = true) :
    chance_ok (ov.bind normalize_probability) := by
  cases ov
  · trivial
  · exact normalize_chance_ok h

mutual
theorem walk_product_chance_ok (p : Product) (n : Option String) (t : Option Int)
    (c : Option ℚ) (r : Bool) (hp : p.chances_in_range = true) (hc : chance_ok c) :
    ∀ ref ∈ walk_product p n t c r, chance_ok ref.drop_chance := by
  match p with
  | .mk ptype reward subs possibles dropRaw owm =>
    have hp' : (chance_opt_in_range dropRaw && subs_chances_in_range subs &&
        possibles.all fun cand => chance_opt_in_range cand.dropRaw) = true := hp
    simp only [Bool.and_eq_true] at hp'
    intro ref href
    rw [walk_product.eq_def] at href
    dsimp only at href
    split_ifs at href with h1 h2 h3
    · rcases reward with _ | rw
      · simp at href
      · rw [List.mem_singleton.mp href]
        exact hc
    · exact walk_subs_chance_ok subs n t c r hp'.1.2 hc ref href
    · rcases walk_chest_mem href with ⟨cand, hcand, rwc, _, heq⟩
      rw [heq]
      exact bind_normalize_chance_ok (List.all_eq_true.mp hp'.2 cand hcand)
    · rcases reward with _ | rw
      · simp at href
      · rw [List.mem_singleton.mp href]
        exact hc

theorem walk_subs_chance_ok (subs : List SubEntry) (n : Option String) (t : Option Int)
    (c : Option ℚ) (r : Bool) (hs : subs_chances_in_range subs = true) (hc : chance_ok c) :
    ∀ ref ∈ walk_sub_products subs n t c r, chance_ok ref.drop_chance := by
  match subs with
  | [] =>
    intro ref href
    rw [walk_sub_products.eq_def] at href
    simp at href
  | .mk (some np) sdrop sowm :: rest =>
    have hs' : (chance_opt_in_range sdrop && np.chances_in_range &&
        subs_chances_in_range rest) = true := hs
    simp only [Bool.and_eq_true] at hs'
    intro ref href
    rw [walk_sub_products.eq_def] at href
    dsimp only at href
    rcases List.mem_append.mp href with h | h
    · have hbind := bind_normalize_chance_ok hs'.1.1
      rcases hb : sdrop.bind normalize_probability with _ | c'
      · rw [hb] at h
        exact walk_product_chance_ok np n t c (r || sowm) hs'.1.2 hc ref h
      · rw [hb] at h hbind
        exact walk_product_chance_ok np n t (some c') (r || sowm) hs'.1.2 hbind ref h
    · exact walk_subs_chance_ok rest n t c r hs'.2 hc ref h
  | .mk none sdrop sowm :: rest =>
    have hs' : (chance_opt_in_range sdrop && subs_chances_in_range rest) = true := hs
    simp only [Bool.and_eq_true] at hs'
    intro ref href
    rw [walk_sub_products.eq_def] at href
    dsimp only at href
    rcases List.mem_append.mp href with h | h
    · simp at h
    · exact walk_subs_chance_ok rest n t c r hs'.2 hc ref h
end

/-! ### Ranking-order helpers (for C6) -/

lemma name_key_le_trans (x y z : Option String) (h1 : name_key_le x y = true)
    (h2 : name_key_le y z = true) : name_key_le x z = true := by
  match x, y, z with
  | none, _, _ => rfl
  | some a, none, _ => exact absurd h1 (by simp [name_key_le])
  | some a, some b, none => exact absurd h2 (by simp [name_key_le])
  | some a, some b, some d =>
    have h1' : a ≤ b := by simpa [name_key_le] using h1
    have h2' : b ≤ d := by simpa [name_key_le] using h2
    simpa [name_key_le] using le_trans h1' h2'

lemma name_key_le_total (x y : Option String) :
    (name_key_le x y || name_key_le y x) = true := by
  match x, y with
  | none, _ => rfl
  | some a, none => rfl
  | some a, some b =>
    simp only [name_key_le, Bool.or_eq_true, decide_eq_true_eq]
    exact le_total a b

lemma rank_le_trans (a b c : RankedBucket) (h1 : rank_le a b = true)
    (h2 : rank_le b c = true) : rank_le a c = true := by
  simp only [rank_le, Bool.or_eq_true, Bool.and_eq_true, decide_eq_true_eq] at h1 h2 ⊢
  rcases h1 with h1 | ⟨h1e, h1n⟩ <;> rcases h2 with h2 | ⟨h2e, h2n⟩
  · exact Or.inl (lt_trans h2 h1)
  · exact Or.inl (by rw [← h2e]; exact h1)
  · exact Or.inl (by rw [h1e]; exact h2)
  · exact Or.inr ⟨h1e.trans h2e, name_key_le_trans _ _ _ h1n h2n⟩

lemma rank_le_total (a b : RankedBucket) : (rank_le a b || rank_le b a) = true := by
  simp only [rank_le, Bool.or_eq_true, Bool.and_eq_true, decide_eq_true_eq]
  rcases lt_trichotomy a.efficiency b.efficiency with h | h | h
  · exact Or.inr (Or.inl h)
  · have htot := name_key_le_total a.name b.name
    rw [Bool.or_eq_true] at htot
    rcases htot with hn | hn
    · exact Or.inl (Or.inr ⟨h, hn⟩)
    · exact Or.inr (Or.inr ⟨h.symm, hn⟩)
  · exact Or.inl (Or.inl h)

/-- The order the ranked output satisfies: strictly higher efficiency first,
ties by non-decreasing name. -/
def ranked_before (a b : RankedBucket) : Prop :=
  b.efficiency < a.efficiency ∨
    (a.efficiency = b.efficiency ∧ name_key_le a.name b.name = true)

lemma rank_buckets_sorted (bs : List (Option String × Bucket)) :
    List.Pairwise ranked_before (rank_buckets bs) := by
  have hs := List.sorted_mergeSort rank_le_trans rank_le_total
    (bs.map fun kb => attach_efficiency kb.2)
  refine hs.imp ?_
  intro a b hab
  simpa [ranked_before, rank_le, Bool.or_eq_true, Bool.and_eq_true,
    decide_eq_true_eq] using hab

lemma rank_buckets_area_none (bs : List (Option String × Bucket)) :
    ∀ b ∈ rank_buckets bs, b.area = none → b.efficiency = 0 := by
  intro b hb hba
  have hmem : b ∈ bs.map fun kb => attach_efficiency kb.2 :=
    List.mem_mergeSort.mp hb
  rcases List.mem_map.mp hmem with ⟨kb, _, heq⟩
  rw [← heq] at hba ⊢
  unfold attach_efficiency at hba ⊢
  dsimp only at hba ⊢
  rw [hba]

/-! ### Column-name helpers (for C7) -/

lemma char_digit_toNat (r : ℕ) (h : r < 26) : (Char.ofNat (65 + r)).toNat = 65 + r := by
  interval_cases r <;> decide

lemma column_value_append_digit (s : String) (c : Char) :
    column_value (s ++ String.singleton c) = column_value s * 26 + (c.toNat - 64) := by
  unfold column_value
  rw [String.data_append, List.foldl_append]
  rfl

lemma column_name_go_value (fuel : ℕ) :
    ∀ index : ℕ, index ≤ fuel → column_value (column_name_go fuel index) = index := by
  induction fuel with
  | zero =>
    intro index h
    interval_cases index
    rfl
  | succ f ih =>
    intro index h
    match index with
    | 0 => rfl
    | i + 1 =>
      rw [column_name_go, column_value_append_digit,
        ih (i / 26) (le_trans (Nat.div_le_self i 26) (Nat.le_of_succ_le_succ h)),
        char_digit_toNat (i % 26) (Nat.mod_lt i (by norm_num))]
      have := Nat.div_add_mod i 26
      omega

/-- `column_value` decodes `column_name`, for every index. -/
lemma column_name_roundtrip (index : ℕ) : column_value (column_name index) = index :=
  column_name_go_value index index le_rfl

/-! ### Claim theorems -/

/-- C1: for every numeric chance input (a number, or a string parsing as a
float), `normalize_probability` returns the value unchanged when it is ≤ 1
and the value divided by 100 when it is > 1 (`50 ↦ 0.5`, `0.2 ↦ 0.2`);
inputs with no float value normalize to no value. -/
theorem C1_normalize_probability_correct :
    (∀ (v : JVal) (q : ℚ), as_float v = some q → q ≤ 1 →
      normalize_probability v = some q) ∧
    (∀ (v : JVal) (q : ℚ), as_float v = some q → 1 < q →
      normalize_probability v = some (q / 100)) ∧
    (∀ v : JVal, as_float v = none → normalize_probability v = none) ∧
    normalize_probability (.num 50) = some (1 / 2) ∧
    normalize_probability (.num (1 / 5)) = some (1 / 5) := by
  refine ⟨?_, ?_, ?_, ?_, ?_⟩
  · intro v q h hle
    simp [normalize_probability, h, not_lt.mpr hle]
  · intro v q h hgt
    simp [normalize_probability, h, hgt]
  · intro v h
    simp [normalize_probability, h]
  · norm_num [normalize_probability, as_float]
  · norm_num [normalize_probability, as_float]

/-- Witness for C1 at the inputs `0.2` (kept), `50` (divided by 100) and a
non-numeric value (no result). -/
theorem C1_normalize_probability_correct_witness :
    (as_float (.num (1 / 5)) = some (1 / 5) ∧ (1 / 5 : ℚ) ≤ 1 ∧
      normalize_probability (.num (1 / 5)) = some (1 / 5)) ∧
    (as_float (.num 50) = some 50 ∧ (1 : ℚ) < 50 ∧
      normalize_probability (.num 50) = some (50 / 100)) ∧
    (as_float (.str none) = none ∧ normalize_probability (.str none) = none) :=
  ⟨⟨rfl, by norm_num, C1_normalize_probability_correct.1 _ _ rfl (by norm_num)⟩,
   ⟨rfl, by norm_num, C1_normalize_probability_correct.2.1 _ _ rfl (by norm_num)⟩,
   ⟨rfl, C1_normalize_probability_correct.2.2.1 _ rfl⟩⟩

/-- Input refuting C2 as stated: a product-level chance of `200`. -/
def C2cex_options : List OptionNode :=
  [{ products := [.mk (some "genericReward") (some { subType := some "one_up_kit" }) [] []
      (some (.num 200)) false] }]

/-- Counterexample to C2 as stated: a chance supplied as `200` normalizes to
`200 / 100 = 2`, so the resolver emits a resolved reward reference whose
effective drop probability is `2`, outside `[0, 1]`. -/
theorem C2_effective_probability_counterexample :
    ((iter_reward_products C2cex_options).map fun ref =>
        effective_probability ref.drop_chance) = [2] ∧
    ¬ ((2 : ℚ) ≤ 1) := by
  constructor
  · simp [iter_reward_products, C2cex_options, walk_product, Product.dropRaw,
      Product.onlyWhenMotivated, normalize_probability, as_float, effective_probability]
    norm_num
  · norm_num

/-- C2 (amended): provided every chance value supplied anywhere in the
options parses, if at all, to a number in `[0, 100]`, the effective drop
probability of every resolved reward reference (the carried chance, with
1.0 as the default when no chance was specified anywhere on the path) lies
in `[0, 1]`. -/
theorem C2_effective_probability_in_unit_interval (options : List OptionNode)
    (h : ∀ o ∈ options, ∀ p ∈ o.products, p.chances_in_range = true) :
    ∀ ref ∈ iter_reward_products options,
      0 ≤ effective_probability ref.drop_chance ∧
        effective_probability ref.drop_chance ≤ 1 := by
  intro ref href
  rcases List.mem_flatMap.mp href with ⟨o, ho, hmem⟩
  rcases List.mem_flatMap.mp hmem with ⟨p, hp, hmem2⟩
  have hpr := h o ho p hp
  have htop : chance_ok (p.dropRaw.bind normalize_probability) := by
    apply bind_normalize_chance_ok
    match p, hpr with
    | .mk ptype reward subs possibles dropRaw owm, hpr =>
      have hpr' : (chance_opt_in_range dropRaw && subs_chances_in_range subs &&
          possibles.all fun cand => chance_opt_in_range cand.dropRaw) = true := hpr
      simp only [Bool.and_eq_true] at hpr'
      exact hpr'.1.1
  have hok := walk_product_chance_ok p o.name o.time _ _ hpr htop ref hmem2
  rcases hd : ref.drop_chance with _ | q
  · norm_num [effective_probability]
  · rw [hd] at hok
    exact hok

/-- Input for the C2 witness: one chance-free `genericReward` product. -/
def C2w_options : List OptionNode :=
  [{ products := [.mk (some "genericReward") (some { subType := some "one_up_kit" }) [] []
      none false] }]

/-- Witness for the amended C2 at a chance-free option: the emitted
reference carries no chance, and its effective probability (the 1.0
default) is within `[0, 1]`. -/
theorem C2_effective_probability_in_unit_interval_witness :
    0 ≤ effective_probability (ResolvedRef.drop_chance
        { rid := none, reward := { subType := some "one_up_kit" }, option_name := none,
          option_time := none, drop_chance := none, requires_motivation := false }) ∧
      effective_probability (ResolvedRef.drop_chance
        { rid := none, reward := { subType := some "one_up_kit" }, option_name := none,
          option_time := none, drop_chance := none, requires_motivation := false }) ≤ 1 :=
  C2_effective_probability_in_unit_interval C2w_options (by decide)
    { rid := none, reward := { subType := some "one_up_kit" }, option_name := none,
      option_time := none, drop_chance := none, requires_motivation := false }
    (by decide)

/-- C3: the aggregator's fragment-equivalent amount is `amount * 30` exactly
when the unit is `"kits"` and the amount unchanged for every other unit; in
particular 2 kit units contribute 60 fragment-equivalent units. -/
theorem C3_kit_unit_conversion :
    (∀ (amount : ℚ) (u : String),
      (fragments_and_note amount u).1 = if u = "kits" then amount * 30 else amount) ∧
    (fragments_and_note 2 "kits").1 = 60 := by
  constructor
  · intro amount u
    by_cases h : u = "kits"
    · simp [fragments_and_note, h]
    · by_cases h2 : u = "fragments" <;> simp [fragments_and_note, h, h2]
  · norm_num [fragments_and_note]

/-- Witness for C3 at amount 2, unit `"kits"`. -/
theorem C3_kit_unit_conversion_witness :
    (fragments_and_note 2 "kits").1 = if "kits" = "kits" then (2 : ℚ) * 30 else 2 :=
  C3_kit_unit_conversion.1 2 "kits"

/-- C4: at a `random` node, a sub-product's own chance value (when it
normalizes to a value) fully replaces the inherited chance for that
sub-product's subtree — the emitted references do not depend on the
inherited chance at all, and it is not multiplied in; when the sub-product
carries no chance, the inherited chance is passed through unchanged. -/
theorem C4_random_chance_override :
    ∀ (np : Product) (rw : Option RewardEntry) (cds : List Candidate)
      (pdrop : Option JVal) (powm sub_owm r : Bool) (n : Option String) (t : Option Int),
      (∀ (v : JVal) (c : ℚ), normalize_probability v = some c →
        ∀ inherited : Option ℚ,
          walk_product
            (.mk (some "random") rw [.mk (some np) (some v) sub_owm] cds pdrop powm)
            n t inherited r
            = walk_product np n t (some c) (r || sub_owm)) ∧
      (∀ inherited : Option ℚ,
          walk_product
            (.mk (some "random") rw [.mk (some np) none sub_owm] cds pdrop powm)
            n t inherited r
            = walk_product np n t inherited (r || sub_owm)) := by
  intro np rw cds pdrop powm sub_owm r n t
  constructor
  · intro v c hv inherited
    have h1 : walk_product
        (.mk (some "random") rw [.mk (some np) (some v) sub_owm] cds pdrop powm)
        n t inherited r
        = walk_product np n t
            (match normalize_probability v with
             | some c' => some c'
             | none => inherited) (r || sub_owm) ++ [] := rfl
    rw [h1, hv, List.append_nil]
  · intro inherited
    have h1 : walk_product
        (.mk (some "random") rw [.mk (some np) none sub_owm] cds pdrop powm)
        n t inherited r
        = walk_product np n t inherited (r || sub_owm) ++ [] := rfl
    rw [h1, List.append_nil]

/-- Witness for C4: a concrete nested `genericReward` under a `random` node,
with an explicit chance of 50 (normalized to 1/2) overriding an inherited
chance of 1/4, and without a chance passing 1/4 through. -/
theorem C4_random_chance_override_witness :
    (normalize_probability (.num 50) = some (1 / 2) ∧
      walk_product
        (.mk (some "random") none
          [.mk (some (.mk (some "genericReward")
            (some { subType := some "one_up_kit" }) [] [] none false)) (some (.num 50)) false]
          [] none false)
        none none (some (1 / 4)) false
        = walk_product
            (.mk (some "genericReward") (some { subType := some "one_up_kit" }) [] [] none false)
            none none (some (1 / 2)) (false || false)) ∧
    walk_product
        (.mk (some "random") none
          [.mk (some (.mk (some "genericReward")
            (some { subType := some "one_up_kit" }) [] [] none false)) none false]
          [] none false)
        none none (some (1 / 4)) false
        = walk_product
            (.mk (some "genericReward") (some { subType := some "one_up_kit" }) [] [] none false)
            none none (some (1 / 4)) (false || false) := by
  have hv : normalize_probability (.num 50) = some (1 / 2) := by
    norm_num [normalize_probability, as_float]
  exact ⟨⟨hv, (C4_random_chance_override _ none [] none false false false none none).1
      (.num 50) (1 / 2) hv (some (1 / 4))⟩,
    (C4_random_chance_override _ none [] none false false false none none).2 (some (1 / 4))⟩

/-- C5: the motivation-required flag is monotonic along every traversal
path: whenever a subtree's walk starts with the flag set — in particular
when the option-level flag is set — every resolved reward reference emitted
from that subtree carries `requires_motivation = true`; the flag is never
cleared. -/
theorem C5_motivation_flag_monotonic :
    (∀ (p : Product) (n : Option String) (t : Option Int) (c : Option ℚ),
      ∀ ref ∈ walk_product p n t c true, ref.requires_motivation = true) ∧
    (∀ o : OptionNode, o.onlyWhenMotivated = true →
      ∀ ref ∈ iter_reward_products [o], ref.requires_motivation = true) := by
  constructor
  · exact fun p n t c => walk_product_motivation p n t c
  · intro o ho ref href
    rcases List.mem_flatMap.mp href with ⟨o', ho', hmem⟩
    have heq : o' = o := by simpa using ho'
    rw [heq] at hmem
    rcases List.mem_flatMap.mp hmem with ⟨p, _, hmem2⟩
    rw [ho] at hmem2
    exact walk_product_motivation p o.name o.time _ ref (by simpa using hmem2)

/-- Witness for C5: a one-product option with the option-level flag set
emits its (chance-free) reward reference flagged as motivation-required. -/
theorem C5_motivation_flag_monotonic_witness :
    (OptionNode.onlyWhenMotivated
        { onlyWhenMotivated := true,
          products := [.mk (some "genericReward")
            (some { subType := some "one_up_kit" }) [] [] none false] } = true) ∧
    ResolvedRef.requires_motivation
      { rid := none, reward := { subType := some "one_up_kit" }, option_name := none,
        option_time := none, drop_chance := none, requires_motivation := true } = true :=
  ⟨rfl, C5_motivation_flag_monotonic.2
    { onlyWhenMotivated := true,
      products := [.mk (some "genericReward")
        (some { subType := some "one_up_kit" }) [] [] none false] } rfl
    { rid := none, reward := { subType := some "one_up_kit" }, option_name := none,
      option_time := none, drop_chance := none, requires_motivation := true }
    (by decide)⟩

/-- `rank_buckets` on a two-bucket map whose first bucket ranks no lower
than the second. -/
lemma rank_buckets_pair (k1 k2 : Option String × Bucket)
    (h : rank_le (attach_efficiency k2.2) (attach_efficiency k1.2) = false) :
    rank_buckets [k1, k2] = [attach_efficiency k1.2, attach_efficiency k2.2] := by
  unfold rank_buckets
  simp only [List.map]
  exact mergeSort_pair rank_le rank_le_trans rank_le_total _ _ h

/-- A building with matching rewards but no footprint data. -/
def C6u : MatchEntry :=
  { id := some "u", name := some "A", size := none, street := none,
    rewards := [{
      kit_subtype := "one_up_kit", kit_label := "One Up Kit", amount := 30,
      unit := "fragments", name := "One Up Kit", option_name := none, option_time := none,
      reward_id := none, drop_chance := none, requires_motivation := false }] }

/-- A 4×4 building whose matching reward contributes 0 fragments. -/
def C6k : MatchEntry :=
  { id := some "k", name := some "B", size := some (4, 4), street := none,
    rewards := [{
      kit_subtype := "one_up_kit", kit_label := "One Up Kit", amount := 0,
      unit := "fragments", name := "One Up Kit", option_name := none, option_time := none,
      reward_id := none, drop_chance := none, requires_motivation := false }] }

/-- The bucket the aggregator builds for `C6u`. -/
def C6u_bucket : Bucket :=
  { name := some "A", size_label := "unknown", area := none, street := none,
    records := [⟨30, "", "", none, false⟩], expected := 30 }

/-- The bucket the aggregator builds for `C6k`. -/
def C6k_bucket : Bucket :=
  { name := some "B", size_label := "4x4", area := some 16, street := none,
    records := [⟨0, "", "", none, false⟩], expected := 0 }

lemma C6_rank_le_eval :
    rank_le (attach_efficiency C6k_bucket) (attach_efficiency C6u_bucket) = false := by
  have h1 : (attach_efficiency C6u_bucket).efficiency = 0 := rfl
  have h2 : (attach_efficiency C6k_bucket).efficiency = 0 := by
    show (if (16 : ℤ) ≠ 0 then (0 : ℚ) / ((16 : ℤ) : ℚ) else 0) = 0
    norm_num
  simp [rank_le, h1, h2, name_key_le, attach_efficiency, C6k_bucket, C6u_bucket]
  decide

lemma C6_aggregate_eval :
    (aggregate_kit_reports [C6u, C6k]).one_up_kit =
      [attach_efficiency C6u_bucket, attach_efficiency C6k_bucket] := by
  have hfold : ([C6u, C6k].foldl process_match {}) =
      { one_up_kit := [(some "u", C6u_bucket), (some "k", C6k_bucket)],
        renovation_kit := [] } := by
    simp [process_match, process_reward, add_to_buckets, C6u, C6k, fragments_and_note,
      effective_probability, format_time_label, C6u_bucket, C6k_bucket,
      show toString (4 : ℤ) = "4" from rfl]
  show rank_buckets ([C6u, C6k].foldl process_match {}).one_up_kit = _
  rw [hfold]
  exact rank_buckets_pair (some "u", C6u_bucket) (some "k", C6k_bucket) C6_rank_le_eval

/-- Counterexample to C6 as stated: the bucket with unknown tile area is
assigned efficiency `0.0`, which ties with a genuine zero-efficiency bucket;
the tie is broken by name, so the unknown-area bucket `"A"` is ranked
*above* the defined-efficiency bucket `"B"` — not at the lowest possible
rank. -/
theorem C6_ranking_counterexample :
    ((aggregate_kit_reports [C6u, C6k]).one_up_kit.map fun b => (b.name, b.area)) =
      [(some "A", none), (some "B", some 16)] := by
  rw [C6_aggregate_eval]
  rfl

/-- C6 (amended): every ranked kit list is sorted so that a strictly higher
efficiency comes first and equal efficiencies are ordered by non-decreasing
case-sensitive building name; a bucket with unknown tile area is assigned
efficiency 0.0 and ranked by that same order, without crashing — so it sits
below every positive-efficiency bucket but ties with zero-efficiency
buckets rather than ranking strictly last. -/
theorem C6_ranking_total_order (ms : List MatchEntry) :
    (List.Pairwise ranked_before (aggregate_kit_reports ms).one_up_kit ∧
      ∀ b ∈ (aggregate_kit_reports ms).one_up_kit, b.area = none → b.efficiency = 0) ∧
    (List.Pairwise ranked_before (aggregate_kit_reports ms).renovation_kit ∧
      ∀ b ∈ (aggregate_kit_reports ms).renovation_kit, b.area = none → b.efficiency = 0) :=
  ⟨⟨rank_buckets_sorted _, rank_buckets_area_none _⟩,
   ⟨rank_buckets_sorted _, rank_buckets_area_none _⟩⟩

/-- Witness for C6 on the two-building input: the ranked list is pairwise
ordered, and the unknown-area bucket has efficiency 0. -/
theorem C6_ranking_total_order_witness :
    List.Pairwise ranked_before (aggregate_kit_reports [C6u, C6k]).one_up_kit ∧
    (attach_efficiency C6u_bucket).area = none ∧
    (attach_efficiency C6u_bucket).efficiency = 0 :=
  ⟨(C6_ranking_total_order [C6u, C6k]).1.1, rfl,
    (C6_ranking_total_order [C6u, C6k]).1.2 (attach_efficiency C6u_bucket)
      (by rw [C6_aggregate_eval]; exact List.mem_cons_self _ _) rfl⟩

/-- C7: `column_name` implements the 1-indexed bijective base-26 scheme:
1 ↦ "A", 26 ↦ "Z", 27 ↦ "AA", 702 ↦ "ZZ", and distinct positive indices map
to distinct names. -/
theorem C7_column_name_bijective_base26 :
    column_name 1 = "A" ∧ column_name 26 = "Z" ∧ column_name 27 = "AA" ∧
    column_name 702 = "ZZ" ∧
    (∀ m k : ℕ, 0 < m → 0 < k → m ≠ k → column_name m ≠ column_name k) := by
  refine ⟨by decide, by decide, by decide, by decide, ?_⟩
  intro m k _ _ hne heq
  exact hne ((column_name_roundtrip m).symm.trans
    (by rw [heq, column_name_roundtrip]))

/-- Witness for C7: injectivity instantiated at the distinct positive
indices 1 and 2. -/
theorem C7_column_name_bijective_base26_witness :
    0 < 1 ∧ 0 < 2 ∧ 1 ≠ 2 ∧ column_name 1 ≠ column_name 2 :=
  ⟨by decide, by decide, by decide,
    C7_column_name_bijective_base26.2.2.2.2 1 2 (by decide) (by decide) (by decide)⟩

/-- Two rows with different column counts (1 and 2). -/
def C8rows : List (List Cell) := [[cell (.s "a")], [cell (.s "b"), cell (.s "c")]]

set_option maxRecDepth 8192 in
/-- Counterexample to C8 as stated: two rows of the same sheet with
different column counts (1 and 2 cells) are serialized without any error
into an ordinary worksheet document — the writer has no fail-fast path and
performs no structural validation. -/
theorem C8_failfast_counterexample :
    (C8rows.map List.length = [1, 2]) ∧
    build_sheet_xml C8rows =
      "<?xml version=\"1.0\" encoding=\"UTF-8\" standalone=\"yes\"?><worksheet xmlns=\"http://schemas.openxmlformats.org/spreadsheetml/2006/main\"><sheetData><row r=\"1\"><c r=\"A1\" t=\"inlineStr\"><is><t xml:space=\"preserve\">a</t></is></c></row><row r=\"2\"><c r=\"A2\" t=\"inlineStr\"><is><t xml:space=\"preserve\">b</t></is></c><c r=\"B2\" t=\"inlineStr\"><is><t xml:space=\"preserve\">c</t></is></c></row></sheetData></worksheet>" := by
  exact ⟨rfl, rfl⟩

/-- C8 (amended): the spreadsheet writer never fails on structurally
inconsistent sheet data: two rows with mismatched column counts are each
serialized independently, with exactly their own cells, into an ordinary
worksheet document. -/
theorem C8_no_structural_validation (r1 r2 : List Cell) (h : r1.length ≠ r2.length) :
    build_sheet_xml [r1, r2] =
      "<?xml version=\"1.0\" encoding=\"UTF-8\" standalone=\"yes\"?>" ++
      "<worksheet xmlns=\"http://schemas.openxmlformats.org/spreadsheetml/2006/main\">" ++
      "<sheetData>" ++ (row_xml 1 r1 ++ row_xml 2 r2) ++ "</sheetData>" ++
      "</worksheet>" := by
  simp [build_sheet_xml, rows_xml, String.append_assoc]

/-- Witness for the amended C8 at concrete mismatched rows. -/
theorem C8_no_structural_validation_witness :
    ([Cell.mk (.s "x") "string"].length ≠
      [Cell.mk (.s "y") "string", Cell.mk (.s "z") "string"].length) ∧
    build_sheet_xml [[Cell.mk (.s "x") "string"],
        [Cell.mk (.s "y") "string", Cell.mk (.s "z") "string"]] =
      "<?xml version=\"1.0\" encoding=\"UTF-8\" standalone=\"yes\"?>" ++
      "<worksheet xmlns=\"http://schemas.openxmlformats.org/spreadsheetml/2006/main\">" ++
      "<sheetData>" ++
      (row_xml 1 [Cell.mk (.s "x") "string"] ++
        row_xml 2 [Cell.mk (.s "y") "string", Cell.mk (.s "z") "string"]) ++
      "</sheetData>" ++ "</worksheet>" :=
  ⟨by decide,
    C8_no_structural_validation [Cell.mk (.s "x") "string"]
      [Cell.mk (.s "y") "string", Cell.mk (.s "z") "string"] (by decide)⟩

/-! ### End-to-end scenario helpers (for C9) -/

lemma rank_buckets_nil : rank_buckets [] = [] :=
  List.Perm.eq_nil (List.mergeSort_perm [] rank_le)

lemma rank_buckets_single (k : Option String × Bucket) :
    rank_buckets [k] = [attach_efficiency k.2] := by
  unfold rank_buckets
  simp only [List.map]
  exact mergeSort_single _ _

lemma pyRound_intCast (n : ℤ) : pyRound ((n : ℤ) : ℚ) = n := by
  unfold pyRound
  norm_num [Int.floor_intCast]

lemma format_number_one : format_number 1 = "1" := by
  have h := pyRound_intCast 1
  norm_num at h
  rw [format_number, h]
  norm_num
  rfl

lemma format_number_thirty : format_number 30 = "30" := by
  have h := pyRound_intCast 30
  norm_num at h
  rw [format_number, h]
  norm_num
  rfl

/-- The era production options of the C9 scenario: one option with cycle
time 3600 s and a single `genericReward` product of subtype `one_up_kit`,
amount 1, no chance specified anywhere. -/
def C9options : List OptionNode :=
  [{ name := some "production", time := some 3600,
     products := [.mk (some "genericReward")
       (some { subType := some "one_up_kit", amount := 1 }) [] [] none false] }]

/-- The C9 entity: footprint 4×4, rewards resolved and classified through
the full resolver/classifier pipeline with an empty lookup table. -/
def C9match : MatchEntry :=
  { id := some "B1", name := some "Sample Building", size := some (4, 4), street := none,
    rewards := collect_era_rewards (fun _ => none) C9options }

/-- The bucket the aggregator builds for the C9 entity. -/
def C9bucket : Bucket :=
  { name := some "Sample Building", size_label := "4x4", area := some 16, street := none,
    records := [⟨30, " (1 kit)", "1h", none, false⟩], expected := 30 }

lemma C9_fold_eval :
    [C9match].foldl process_match {} =
      { one_up_kit := [(some "B1", C9bucket)], renovation_kit := [] } := by
  simp [C9match, C9options, collect_era_rewards, iter_reward_products, walk_product,
    parse_reward_entry, targetKitLabel, process_match, process_reward, add_to_buckets,
    fragments_and_note, effective_probability, format_time_label, format_number_one,
    C9bucket, Product.dropRaw, Product.onlyWhenMotivated,
    show toString (4 : ℤ) = "4" from rfl, show toString (1 : ℤ) ++ "h" = "1h" from rfl]

lemma C9_detail :
    record_detail ⟨30, " (1 kit)", "1h", none, false⟩ = "30 fragments (1 kit) (1h)" := by
  simp [record_detail, format_number_thirty]

/-- C9: the 4×4 entity with one 3600-second option producing one
`one_up_kit` with no chance yields exactly one One Up Kit bucket with
expected 30 fragments per cycle, efficiency 15/8 = 1.875 fragments per
tile, and a single detail record "30 fragments (1 kit) (1h)"; the
Renovation Kit report is empty. -/
theorem C9_end_to_end :
    ((aggregate_kit_reports [C9match]).one_up_kit.map fun b =>
        (b.expected, b.efficiency, b.records.map record_detail)) =
      [(30, 15 / 8, ["30 fragments (1 kit) (1h)"])] ∧
    (15 / 8 : ℚ) = 1875 / 1000 ∧
    (aggregate_kit_reports [C9match]).renovation_kit = [] := by
  have h1 : (aggregate_kit_reports [C9match]).one_up_kit = [attach_efficiency C9bucket] := by
    show rank_buckets ([C9match].foldl process_match {}).one_up_kit = _
    rw [C9_fold_eval]
    exact rank_buckets_single _
  have h2 : (aggregate_kit_reports [C9match]).renovation_kit = [] := by
    show rank_buckets ([C9match].foldl process_match {}).renovation_kit = _
    rw [C9_fold_eval]
    exact rank_buckets_nil
  refine ⟨?_, by norm_num, h2⟩
  rw [h1]
  simp [attach_efficiency, C9bucket, C9_detail]
  norm_num

/-- C10: every `chest` candidate is emitted as a terminal leaf whose drop
probability comes only from the candidate's own chance keys: the emitted
references do not depend on the inherited chance at all; a candidate with no
chance key is emitted with no probability (which the aggregator later treats
as 1.0); option name, time, and the inherited motivation flag pass through. -/
theorem C10_chest_discards_inherited_chance :
    ∀ (cands : List Candidate) (rw : Option RewardEntry) (subs : List SubEntry)
      (pdrop : Option JVal) (powm : Bool) (n : Option String) (t : Option Int) (r : Bool),
      (∀ inh inh' : Option ℚ,
        walk_product (.mk (some "chest") rw subs cands pdrop powm) n t inh r =
          walk_product (.mk (some "chest") rw subs cands pdrop powm) n t inh' r) ∧
      (∀ inh : Option ℚ,
        ∀ ref ∈ walk_product (.mk (some "chest") rw subs cands pdrop powm) n t inh r,
          ref.option_name = n ∧ ref.option_time = t ∧ ref.requires_motivation = r) ∧
      (∀ inh : Option ℚ, ∀ c ∈ cands, ∀ rwc : RewardEntry,
        c.reward = some rwc → c.dropRaw = none →
        ({ rid := rwc.id, reward := rwc, option_name := n, option_time := t,
           drop_chance := none, requires_motivation := r } : ResolvedRef) ∈
          walk_product (.mk (some "chest") rw subs cands pdrop powm) n t inh r) ∧
      effective_probability none = 1 := by
  intro cands rw subs pdrop powm n t r
  have hred : ∀ inh : Option ℚ,
      walk_product (.mk (some "chest") rw subs cands pdrop powm) n t inh r =
        walk_chest cands n t r := fun _ => rfl
  refine ⟨fun inh inh' => (hred inh).trans (hred inh').symm, ?_, ?_, rfl⟩
  · intro inh ref href
    rw [hred] at href
    rcases walk_chest_mem href with ⟨_, _, _, _, heq⟩
    rw [heq]
    exact ⟨rfl, rfl, rfl⟩
  · intro inh c hc rwc hrw hdrop
    rw [hred]
    exact List.mem_filterMap.mpr ⟨c, hc, by rw [hrw, hdrop]; rfl⟩

/-- Witness for C10: a chest with one chance-free candidate, walked under an
inherited chance of 1/4, emits the candidate with no probability. -/
theorem C10_chest_discards_inherited_chance_witness :
    (Candidate.reward { reward := some { subType := some "renovation_kit" }, dropRaw := none }
        = some { subType := some "renovation_kit" } ∧
      Candidate.dropRaw { reward := some { subType := some "renovation_kit" }, dropRaw := none }
        = none) ∧
    ({ rid := none, reward := { subType := some "renovation_kit" }, option_name := none,
       option_time := none, drop_chance := none, requires_motivation := false } : ResolvedRef) ∈
      walk_product
        (.mk (some "chest") none [] [{ reward := some { subType := some "renovation_kit" } }]
          none false)
        none none (some (1 / 4)) false :=
  ⟨⟨rfl, rfl⟩,
    (C10_chest_discards_inherited_chance
        [{ reward := some { subType := some "renovation_kit" } }]
        none [] none false none none false).2.2.1
      (some (1 / 4)) { reward := some { subType := some "renovation_kit" } }
      (List.mem_singleton_self _) { subType := some "renovation_kit" } rfl rfl⟩

end KitReport
